import Mathlib

/-!
# Verification of the build/test orchestration core

Shallow embedding of the Python sources of the repository:

* `build/scripts/common/gtest_utils.py` — the streaming GTest log classifier
  (`GTestLogParser`), embedded in namespace `GtestUtils`;
* `build/scripts/slave/annotated_run.py` — the step orchestration engine
  (`StepPresentation`, `StepData`, `flattened`, `fixup_seed_steps`,
  `ensure_sequence_of_steps`, `step_callback`, the `run_steps` loop),
  embedded in namespace `AnnotatedRun`;
* `build/scripts/slave/recipe_modules/properties/api.py` — the immutable
  property-bag view (`ImmutibleMapping`, `freeze`), embedded in namespace
  `PropertiesApi`.

Python dictionaries are modelled as association lists (first binding of a key
wins on lookup; updates replace in place or append).  Python exceptions
(`assert`, `raise TypeError`) are modelled as `Except String`.  Machine
integers are `Int`/`Nat` (Python integers are unbounded, so no wraparound is
modelled).
-/

namespace PyDict

/-- Lookup in an association list, Python-dict style, returning the first
binding of the key.  All association lists in this development are built by
`aset` starting from `[]`, so keys are unique and first-match lookup is
faithful to a Python dict. -/
def alookup {α : Type} : List (String × α) → String → Option α
  | [], _ => none
  | (k', v) :: rest, k => if k' = k then some v else alookup rest k

/-- `d[k] = v` on a Python dict: replace the existing binding in place, or
append a fresh binding. -/
def aset {α : Type} : List (String × α) → String → α → List (String × α)
  | [], k, v => [(k, v)]
  | (k', v') :: rest, k, v =>
    if k' = k then (k, v) :: rest else (k', v') :: aset rest k v


end PyDict

namespace GtestUtils

open PyDict

/-- Python `\s` on a byte string: `[ \t\n\r\f\v]`. -/
def isPySpace (c : Char) : Bool :=
  c = ' ' || c = '\t' || c = '\n' || c = '\r' || c = '\x0b' || c = '\x0c'

/-- Python `\w` on a byte string without `re.UNICODE`: `[A-Za-z0-9_]`. -/
def isWordChar (c : Char) : Bool :=
  ('a' ≤ c && c ≤ 'z') || ('A' ≤ c && c ≤ 'Z') || c.isDigit || c = '_'

/-- Consume an exact literal; returns the rest on success. -/
def dropLit : List Char → List Char → Option (List Char)
  | [], cs => some cs
  | _ :: _, [] => none
  | p :: ps, c :: cs => if c = p then dropLit ps cs else none

/-- `\s+`: one or more Python whitespace characters. -/
def spaces1 (cs : List Char) : Option (List Char) :=
  let (sp, rest) := cs.span isPySpace
  if sp.isEmpty then none else some rest

/-- `\d+`: one or more ASCII digits; returns the digits and the rest. -/
def digits1 (cs : List Char) : Option (List Char × List Char) :=
  let (ds, rest) := cs.span Char.isDigit
  if ds.isEmpty then none else some (ds, rest)

/-- Value of a string of ASCII digits (what Python's `int()` computes on the
`\d+` capture group; it cannot raise `ValueError` on such input). -/
def natOfDigits (ds : List Char) : Nat :=
  ds.foldl (fun n c => n * 10 + (c.toNat - 48)) 0

/-- The optional `(/\d+)?` suffix of a test name: greedy, matches only when a
`/` is immediately followed by at least one digit. -/
def testNameSuffix (name : List Char) (r : List Char) : List Char × List Char :=
  match r with
  | '/' :: r' =>
    let (ds, r2) := r'.span Char.isDigit
    if ds.isEmpty then (name, r) else (name ++ '/' :: ds, r2)
  | _ => (name, r)

/-- Anchored match of `test_name_regexp = ((\w+/)?\w+\.\w+(/\d+)?)`; returns
the text of capture group 1 and the remaining input.  Because `\w` never
matches `/` or `.`, the regex engine's backtracking collapses to this
deterministic reading. -/
def matchTestName (cs : List Char) : Option (List Char × List Char) :=
  let (w1, r1) := cs.span isWordChar
  if w1.isEmpty then none
  else
    match r1 with
    | '/' :: r1' =>
      let (w2, r2) := r1'.span isWordChar
      if w2.isEmpty then none
      else
        match r2 with
        | '.' :: r2' =>
          let (w3, r3) := r2'.span isWordChar
          if w3.isEmpty then none
          else some (testNameSuffix (w1 ++ '/' :: (w2 ++ '.' :: w3)) r3)
        | _ => none
    | '.' :: r1' =>
      let (w3, r3) := r1'.span isWordChar
      if w3.isEmpty then none
      else some (testNameSuffix (w1 ++ '.' :: w3) r3)
    | _ => none

/-- `\[\s+WORD\s+\] ` — the shared prefix of the `[ RUN ]`, `[ OK ]`,
`[ FAILED ]` and `[ PASSED ]` markers; returns the rest after `"] "`. -/
def matchGtestMarker (word : List Char) (cs : List Char) : Option (List Char) :=
  match cs with
  | '[' :: r => do
    let r ← spaces1 r
    let r ← dropLit word r
    let r ← spaces1 r
    let r ← dropLit [']', ' '] r
    some r
  | _ => none

/-- `self._test_start.match(line)`: `\[\s+RUN\s+\] ` + test name; returns
capture group 1. -/
def matchTestStart (line : String) : Option String := do
  let r ← matchGtestMarker ['R', 'U', 'N'] line.toList
  let (nm, _) ← matchTestName r
  pure nm.asString

/-- `self._test_ok.match(line)`. -/
def matchTestOk (line : String) : Option String := do
  let r ← matchGtestMarker ['O', 'K'] line.toList
  let (nm, _) ← matchTestName r
  pure nm.asString

/-- `self._test_fail.match(line)`. -/
def matchTestFail (line : String) : Option String := do
  let r ← matchGtestMarker ['F', 'A', 'I', 'L', 'E', 'D'] line.toList
  let (nm, _) ← matchTestName r
  pure nm.asString

/-- `self._test_passed.match(line)`: `\[\s+PASSED\s+\] \d+ tests?.` — note
the trailing `.` is an unescaped regex dot, i.e. any character but `\n`; the
greedy optional `s` backtracks, so all that is required after `test` is one
more non-newline character. -/
def matchTestPassed (line : String) : Bool :=
  match matchGtestMarker ['P', 'A', 'S', 'S', 'E', 'D'] line.toList with
  | none => false
  | some r =>
    match digits1 r with
    | none => false
    | some (_, r1) =>
      match dropLit [' ', 't', 'e', 's', 't'] r1 with
      | none => false
      | some r2 =>
        match r2 with
        | [] => false
        | c :: _ => c ≠ '\n'

/-- `self._run_test_cases_line.match(line)`:
`\[\s*\d+\/\d+\]\s+[0-9\.]+s ` + test name + ` .+`. -/
def matchRunTestCases (line : String) : Bool :=
  match line.toList with
  | '[' :: r =>
    let r := r.dropWhile isPySpace
    (match digits1 r with
     | none => false
     | some (_, r) =>
       match r with
       | '/' :: r =>
         (match digits1 r with
          | none => false
          | some (_, r) =>
            match r with
            | ']' :: r =>
              (match spaces1 r with
               | none => false
               | some r =>
                 let (t, r) := r.span (fun c => c.isDigit || c = '.')
                 if t.isEmpty then false
                 else
                   match r with
                   | 's' :: ' ' :: r =>
                     (match matchTestName r with
                      | none => false
                      | some (_, r) =>
                        match r with
                        | ' ' :: c :: _ => c ≠ '\n'
                        | _ => false)
                   | _ => false)
            | _ => false)
       | _ => false)
  | _ => false

/-- `self._disabled.match(line)` / `self._flaky.match(line)`:
`\s*YOU HAVE (\d+) WORD` with `WORD` either `DISABLED TEST` or `FLAKY TEST`;
returns the integer value of the capture group. -/
def matchCountBanner (word : List Char) (line : String) : Option Nat := do
  let r := line.toList.dropWhile isPySpace
  let r ← dropLit "YOU HAVE ".toList r
  let (ds, r1) ← digits1 r
  let _ ← dropLit (' ' :: word) r1
  pure (natOfDigits ds)

def matchDisabled (line : String) : Option Nat :=
  matchCountBanner "DISABLED TEST".toList line

def matchFlaky (line : String) : Option Nat :=
  matchCountBanner "FLAKY TEST".toList line

/-- Anchored match of the timeout message
`Test timeout \([0-9]+ ms\) exceeded for ` + test name. -/
def matchTimeoutAt (cs : List Char) : Option String := do
  let r ← dropLit "Test timeout (".toList cs
  let (_, r1) ← digits1 r
  let r2 ← dropLit " ms) exceeded for ".toList r1
  let (nm, _) ← matchTestName r2
  pure nm.asString

/-- `self._test_timeout.search(line)`: leftmost match anywhere in the line. -/
def searchTimeout : List Char → Option String
  | [] => none
  | c :: rest =>
    match matchTimeoutAt (c :: rest) with
    | some nm => some nm
    | none => searchTimeout rest

/-- `self._suppression_start.match(line)`:
`Suppression \(error hash=#([0-9A-F]+)#\):`; returns the hash. -/
def matchSuppressionStart (line : String) : Option String := do
  let r ← dropLit "Suppression (error hash=#".toList line.toList
  let (hs, r1) := r.span (fun c => c.isDigit || ('A' ≤ c && c ≤ 'F'))
  if hs.isEmpty then none
  else do
    let _ ← dropLit "#):".toList r1
    pure hs.asString

/-- `self._suppression_end.match(line)`: `^}\s*$`. -/
def matchSuppressionEnd (line : String) : Bool :=
  match line.toList with
  | '}' :: r => r.all isPySpace
  | _ => false

/-- `self._master_name_re.match(line)`: `\[Running for master: "([^"]*)"`. -/
def matchMasterName (line : String) : Option String := do
  let r ← dropLit "[Running for master: \"".toList line.toList
  let (nm, r1) := r.span (fun c => c ≠ '"')
  match r1 with
  | '"' :: _ => pure nm.asString
  | _ => none

/-- `line.startswith(prefix)`. -/
def pyStartsWith (line pre : String) : Bool :=
  (dropLit pre.toList line.toList).isSome

/-- `line.strip()`. -/
def pyStrip (s : String) : String :=
  (((s.toList.dropWhile isPySpace).reverse.dropWhile isPySpace).reverse).asString

/-- The value of `self._disabled_tests` / `self._flaky_tests`: either a Python
`int`, or the Python string `'some'` (constructor `indeterminate`). -/
inductive TestCount where
  | num (n : Nat)
  | indeterminate
deriving Repr, DecidableEq

/-- `isinstance(x, int)` on a `TestCount`. -/
def TestCount.isNum : TestCount → Bool
  | .num _ => true
  | .indeterminate => false

/-- State of `GTestLogParser` (`gtest_utils.py`, `__init__`).  The extra field
`fdAliased` is a ghost flag tracking Python heap aliasing: it is true exactly
when `self._failure_description` and the description list stored in
`self._test_status[self._current_test]` are the same list object (which
happens after a `[ RUN ]` line processed in retry mode), so that appending to
the failure description must also be reflected in the stored entry. -/
structure GTestLogParser where
  completed : Bool := false
  currentTest : String := ""
  failureDescription : List String := []
  currentSuppressionHash : String := ""
  currentSuppression : List String := []
  parsingFailures : Bool := false
  lineNumber : Nat := 0
  internalErrorLines : List String := []
  testStatus : List (String × (String × List String)) := []
  suppressions : List (String × List String) := []
  disabledTests : TestCount := .num 0
  flakyTests : TestCount := .num 0
  masterName : String := ""
  retryingFailed : Bool := false
  fdAliased : Bool := false
deriving Repr, DecidableEq

/-- The freshly constructed parser. -/
def initParser : GTestLogParser := {}

/-- `_StatusOfTest`. -/
def statusOfTest (p : GTestLogParser) (t : String) : String :=
  ((alookup p.testStatus t).getD ("not known", [])).1

/-- `_RecordError`. -/
def recordError (p : GTestLogParser) (line reason : String) : GTestLogParser :=
  { p with internalErrorLines :=
      p.internalErrorLines ++
        [toString p.lineNumber ++ ": " ++ pyStrip line ++ " [" ++ reason ++ "]"] }

/-- The shared stale-test cleanup of `_ProcessLine` (lines 226–229 and
274–277): if a test is current and still `started`, force it to `timeout`
carrying the accumulated failure description. -/
def forceStaleTimeout (p : GTestLogParser) : GTestLogParser :=
  if p.currentTest = "" then p
  else if statusOfTest p p.currentTest = "started" then
    { p with
        testStatus := aset p.testStatus p.currentTest ("timeout", p.failureDescription) }
  else p

/-- The remainder of the `[ RUN ]` branch after the stale-test cleanup
(lines 278–286): record the new test as started with the placeholder
description, and in retry mode seed the failure description from the entry
just stored (which the preceding assignment has already reset), extending the
shared list with the `RETRY OUTPUT:` separator. -/
def startNewTest (p0 : GTestLogParser) (t : String) : GTestLogParser :=
  let p := { p0 with
    testStatus := aset p0.testStatus t ("started", ["Did not complete."]),
    currentTest := t }
  if p.retryingFailed then
    let desc := ((alookup p.testStatus t).getD ("", [])).2 ++ ["", "RETRY OUTPUT:", ""]
    { p with
        failureDescription := desc,
        testStatus := aset p.testStatus t ("started", desc),
        fdAliased := true }
  else
    { p with failureDescription := [], fdAliased := false }

/-- The `[ OK ]` branch (lines 289–301). -/
def okBranch (p0 : GTestLogParser) (t : String) (line : String) : GTestLogParser :=
  let st := statusOfTest p0 t
  let p := if st ≠ "started" then
             recordError p0 line ("success while in status " ++ st)
           else p0
  let p := if p.retryingFailed then
             { p with testStatus := aset p.testStatus t ("warning", p.failureDescription) }
           else
             { p with testStatus := aset p.testStatus t ("OK", []) }
  { p with failureDescription := [], currentTest := "", fdAliased := false }

/-- The `[ FAILED ]` branch (lines 304–317). -/
def failBranch (p0 : GTestLogParser) (t : String) (line : String) : GTestLogParser :=
  let st := statusOfTest p0 t
  let p := if st ≠ "started" ∧ st ≠ "failed" ∧ st ≠ "timeout" then
             recordError p0 line ("failure while in status " ++ st)
           else p0
  let p := if st ≠ "failed" ∧ st ≠ "timeout" then
             { p with testStatus := aset p.testStatus t ("failed", p.failureDescription) }
           else p
  { p with failureDescription := [], currentTest := "", fdAliased := false }

/-- The timeout-message branch (lines 320–330). -/
def timeoutBranch (p0 : GTestLogParser) (t : String) (line : String) : GTestLogParser :=
  let st := statusOfTest p0 t
  let p := if st ≠ "started" ∧ st ≠ "failed" then
             recordError p0 line ("timeout while in status " ++ st)
           else p0
  { p with
      testStatus :=
        aset p.testStatus t ("timeout", p.failureDescription ++ ["Killed (timed out)."]),
      failureDescription := [],
      currentTest := "",
      fdAliased := false }

/-- The suppression-start branch (lines 333–341). -/
def suppressionStartBranch (p0 : GTestLogParser) (h : String) (line : String) :
    GTestLogParser :=
  let p := if (alookup p0.suppressions h).isSome then
             recordError p0 line "suppression reported more than once"
           else p0
  { p with
      suppressions := aset p.suppressions h [],
      currentSuppressionHash := h,
      currentSuppression := [line] }

/-- The suppression-end branch (lines 344–351); only taken when a suppression
is open. -/
def suppressionEndBranch (p : GTestLogParser) (line : String) : GTestLogParser :=
  { p with
      suppressions :=
        aset p.suppressions p.currentSuppressionHash (p.currentSuppression ++ [line]),
      currentSuppressionHash := "",
      currentSuppression := [] }

/-- The fall-through of `_ProcessLine` (lines 359–386): collect the line into
an open suppression, else into the current test's failure description (also
reflected into the stored entry while the ghost alias is live), and then the
`Failing tests:` trailer section. -/
def fallbackLine (p : GTestLogParser) (line : String) : GTestLogParser :=
  if p.currentSuppressionHash ≠ "" then
    { p with currentSuppression := p.currentSuppression ++ [line] }
  else
    let p :=
      if p.currentTest ≠ "" then
        let fd := p.failureDescription ++ [line]
        let ts := if p.fdAliased then
                    aset p.testStatus p.currentTest
                      (((alookup p.testStatus p.currentTest).getD ("", [])).1, fd)
                  else p.testStatus
        { p with failureDescription := fd, testStatus := ts }
      else p
    if p.parsingFailures then
      match matchTestName line.toList with
      | some (nm, _) =>
        let t := nm.asString
        let st := statusOfTest p t
        if st = "not known" ∨ st = "OK" then
          { p with
              testStatus := aset p.testStatus t ("failed", ["Unknown error, see stdio log."]) }
        else p
      | none => { p with parsingFailures := false }
    else if pyStartsWith line "Failing tests:" then
      { p with parsingFailures := true }
    else p

/-- The master-name capture (lines 218–221); does not consume the line. -/
def applyMasterName (p : GTestLogParser) (line : String) : GTestLogParser :=
  if p.masterName = "" then
    match matchMasterName line with
    | some m => { p with masterName := m }
    | none => p
  else p

/-- `GTestLogParser._ProcessLine`, the per-line state transition.  (The outer
`ProcessLine` wrapper, which repairs interleaved lines by splitting at an
embedded marker and increments the line counter, is not modelled; the claims
under verification all target `_ProcessLine`.) -/
def processLine (p0 : GTestLogParser) (line : String) : GTestLogParser :=
  let p := applyMasterName p0 line
  if matchRunTestCases line then
    { forceStaleTimeout p with
        currentTest := "", failureDescription := [], fdAliased := false }
  else if matchTestPassed line then
    { p with completed := true, currentTest := "" }
  else
    match matchDisabled line with
    | some n =>
      { p with disabledTests :=
          if 0 < n ∧ p.disabledTests.isNum then .num n else .indeterminate }
    | none =>
    match matchFlaky line with
    | some n =>
      { p with flakyTests :=
          if 0 < n ∧ p.flakyTests.isNum then .num n else .indeterminate }
    | none =>
    match matchTestStart line with
    | some t => startNewTest (forceStaleTimeout p) t
    | none =>
    match matchTestOk line with
    | some t => okBranch p t line
    | none =>
    match matchTestFail line with
    | some t => failBranch p t line
    | none =>
    match searchTimeout line.toList with
    | some t => timeoutBranch p t line
    | none =>
    match matchSuppressionStart line with
    | some h => suppressionStartBranch p h line
    | none =>
    if matchSuppressionEnd line ∧ p.currentSuppressionHash ≠ "" then
      suppressionEndBranch p line
    else if pyStartsWith line "RETRYING FAILED TESTS:" then
      { p with retryingFailed := true }
    else
      fallbackLine p line

/-- Feeding a list of lines in order. -/
def processLines (p : GTestLogParser) (lines : List String) : GTestLogParser :=
  lines.foldl processLine p

/-- `GTestLogParser.DisabledTests`. -/
def DisabledTests (p : GTestLogParser) : TestCount := p.disabledTests

/-- `GTestLogParser.FlakyTests`. -/
def FlakyTests (p : GTestLogParser) : TestCount := p.flakyTests

/-- `GTestLogParser.FailureDescription`. -/
def FailureDescription (p : GTestLogParser) (t : String) : List String :=
  (t ++ ": ") :: ((alookup p.testStatus t).getD ("", [])).2



end GtestUtils

namespace AnnotatedRun

open PyDict

/-- A step record (the step dict of `annotated_run.py`).  Only the keys the
claims under verification inspect are carried: `name` and the optional
`seed_steps` grouping tag; the remaining keys (`cmd`, `cwd`, `keep_going`,
…) are not read by the verified behaviors. -/
structure Step where
  name : String
  seedSteps : Option (List String) := none
deriving Repr, DecidableEq

/-- `StepPresentation.STATUSES`. -/
def STATUSES : List String := ["SUCCESS", "FAILURE", "WARNING", "EXCEPTION"]

/-- `StepPresentation` (annotated_run.py lines 90–160): the mutable-then-
frozen presentation record.  `status = none` is the unset (`UNKNOWN`)
state. -/
structure StepPresentation where
  finalized : Bool := false
  logs : List (String × List String) := []
  perfLogs : List (String × List String) := []
  status : Option String := none
  stepSummaryText : Option String := none
  stepText : Option String := none
deriving Repr, DecidableEq

/-- The `status` setter: `assert not self._finalized; assert val in
self.STATUSES`. -/
def setStatus (p : StepPresentation) (val : String) : Except String StepPresentation :=
  if p.finalized then Except.error "assert not self._finalized"
  else if val ∈ STATUSES then Except.ok { p with status := some val }
  else Except.error "assert val in self.STATUSES"

/-- The `step_text` setter: `assert not self._finalized`. -/
def setStepText (p : StepPresentation) (val : String) : Except String StepPresentation :=
  if p.finalized then Except.error "assert not self._finalized"
  else Except.ok { p with stepText := some val }

/-- The `step_summary_text` setter: `assert not self._finalized`. -/
def setStepSummaryText (p : StepPresentation) (val : String) :
    Except String StepPresentation :=
  if p.finalized then Except.error "assert not self._finalized"
  else Except.ok { p with stepSummaryText := some val }

/-- The value the `logs` property returns (the alias before finalize and the
deep copy after finalize are equal *as values*). -/
def readLogs (p : StepPresentation) : List (String × List String) := p.logs

/-- The value the `perf_logs` property returns. -/
def readPerfLogs (p : StepPresentation) : List (String × List String) := p.perfLogs

/-- A caller mutating the object returned by the `logs` property, with
Python's aliasing made explicit: before finalize the property returns
`self._logs` itself, so the mutation writes back into the presentation;
after finalize it returns `copy.deepcopy(self._logs)`, so the mutation
affects only the caller's copy and the presentation is unchanged. -/
def mutateThroughLogs (p : StepPresentation)
    (f : List (String × List String) → List (String × List String)) :
    StepPresentation :=
  if p.finalized then p else { p with logs := f p.logs }

/-- Same for the `perf_logs` property. -/
def mutateThroughPerfLogs (p : StepPresentation)
    (f : List (String × List String) → List (String × List String)) :
    StepPresentation :=
  if p.finalized then p else { p with perfLogs := f p.perfLogs }

/-- `finalize`: sets the frozen flag.  (The emission of text, logs and the
status callback to the annotator stream is I/O and changes no field.) -/
def finalize (p : StepPresentation) : StepPresentation := { p with finalized := true }

/-- `StepData` (annotated_run.py lines 163–180). -/
structure StepData where
  step : Step
  retcode : Int
  presentation : StepPresentation
deriving Repr, DecidableEq

/-- The `_inner` closure of `step_callback` (lines 264–282): build the
`StepData`; on a **positive** return code default the presentation status to
`FAILURE` through the setter; run the follow-up callback if present (it may
rewrite the presentation); finalize.  Recording into `step_history` mutates
the same object and is modelled at the call site (`runOneStep`); the
annotation-stream emission is I/O and not modelled. -/
def innerCallback (step : Step) (retcode : Int)
    (followup : Option (StepData → StepData)) : Except String StepData := do
  let sd : StepData := ⟨step, retcode, {}⟩
  let sd ←
    if retcode > 0 then do
      let p ← setStatus sd.presentation "FAILURE"
      pure { sd with presentation := p }
    else pure sd
  let sd :=
    match followup with
    | some f => f sd
    | none => sd
  pure { sd with presentation := finalize sd.presentation }

/-- `step_history`: the insertion-ordered mapping from step name to result. -/
abbrev StepHistory := List (String × StepData)

/-- One iteration of the `run_steps` loop (lines 385–409) in test mode with
no follow-up function: `assert step['name'] not in step_history` (the
duplicate-name check happens *before* the callback runs and records), then
the callback records the result under the step's name. -/
def runOneStep (history : StepHistory) (step : Step) (retcode : Int) :
    Except String StepHistory := do
  if (alookup history step.name).isSome then
    Except.error ("Step \"" ++ step.name ++ "\" is already in step_history!")
  else do
    let sd ← innerCallback step retcode none
    pure (aset history step.name sd)

/-- The `run_steps` loop over a list of (step, canned return code) pairs,
starting from the empty history. -/
def runStepsLoop (steps : List (Step × Int)) : Except String StepHistory :=
  steps.foldlM (fun h sr => runOneStep h sr.1 sr.2) []

/-- Modelled from the spec: the step history's `last_step` convenience query
("Returns the last step that ran or None").  Its implementation lives in
`recipe_api.py`, which is not among the repository's staged source files;
only the docstring of `annotated_run.py` (lines 54–59) describes it. -/
def lastStep (h : StepHistory) : Option StepData :=
  (h.map Prod.snd).getLast?

/-- Modelled from the spec: the step history's `nth_step(n)` convenience
query ("Returns the N'th step that ran or None"); implementation in
`recipe_api.py`, not staged. -/
def nthStep (h : StepHistory) (n : Nat) : Option StepData :=
  (h.map Prod.snd).get? n

/-- The step result `_inner` produces for a canned run with no follow-up
callback: a finalized presentation whose status is `FAILURE` exactly when
the return code is positive. -/
def cannedResult (step : Step) (retcode : Int) : StepData :=
  ⟨step, retcode,
    { finalized := true,
      status := if retcode > 0 then some "FAILURE" else none }⟩

end AnnotatedRun

namespace AnnotatedRun

mutual
/-- The legal shapes of a step source for `ensure_sequence_of_steps`
(annotated_run.py docstring, lines 32–36): a step dict, a (possibly nested)
sequence of these, or a generator of these.  Anything else hits the
`assert False, 'Item is not a sequence or a step'` contract violation and is
not representable here. -/
inductive StepVal where
  | s (st : Step)
  | seqv (items : StepList)
  | genv (items : StepList)
/-- A specialized list of `StepVal`, so that the mutually recursive
functions below are structurally recursive. -/
inductive StepList where
  | nil
  | cons (head : StepVal) (tail : StepList)
end

mutual
/-- `flattened(sequence)` (lines 183–189), per item: recursively flattens
nested `collections.Sequence` items in order, yielding every non-sequence
item as it is.  A generator nested inside a sequence is *not* a `Sequence`,
so it is yielded unchanged (and later blows up in `fixup_seed_steps`). -/
def flatItem : StepVal → List StepVal
  | .seqv l => flatList l
  | x => [x]
/-- `flattened` over a whole sequence. -/
def flatList : StepList → List StepVal
  | .nil => []
  | .cons x t => flatItem x ++ flatList t
end

/-- `fixup_seed_steps(sequence)` (lines 192–205): if the first step has no
`seed_steps` key, the loop stores a fresh list there and appends every
step's name to it (the first's included); if the first step already has the
key — whatever its value — the loop breaks at once and the sequence is
returned unchanged. -/
def fixup_seed_steps (seq : List Step) : List Step :=
  match seq with
  | [] => []
  | s0 :: rest =>
    if s0.seedSteps.isSome then s0 :: rest
    else { s0 with seedSteps := some ((s0 :: rest).map Step.name) } :: rest

/-- The items `fixup_seed_steps` iterates must be step dicts: a generator
that survived `flattened` raises a `TypeError` at `'seed_steps' in step`. -/
def asSteps : List StepVal → Except String (List Step)
  | [] => Except.ok []
  | .s st :: rest => do pure (st :: (← asSteps rest))
  | .seqv _ :: _ => Except.error "TypeError: argument is not a step dict"
  | .genv _ :: _ => Except.error "TypeError: argument of type 'generator' is not iterable"

mutual
/-- `ensure_sequence_of_steps(step_or_steps)` (lines 208–220): a dict yields
itself; a sequence is flattened and then seed-fixed; a generator is drained,
each yielded item resolved recursively. -/
def ensure : StepVal → Except String (List Step)
  | .s st => Except.ok [st]
  | .seqv l => do pure (fixup_seed_steps (← asSteps (flatList l)))
  | .genv l => ensureList l
/-- Draining a generator: each yielded item resolved in order. -/
def ensureList : StepList → Except String (List Step)
  | .nil => Except.ok []
  | .cons x t => do pure ((← ensure x) ++ (← ensureList t))
end

mutual
/-- The leaf steps of a step source in depth-first, left-to-right order. -/
def leavesV : StepVal → List Step
  | .s st => [st]
  | .seqv l => leavesL l
  | .genv l => leavesL l
/-- The leaves of a list of step sources, in order. -/
def leavesL : StepList → List Step
  | .nil => []
  | .cons x t => leavesV x ++ leavesL t
end

mutual
/-- No generator occurs anywhere inside (what a sequence argument must
satisfy for `flattened` + `fixup_seed_steps` not to raise). -/
def noGenV : StepVal → Bool
  | .s _ => true
  | .seqv l => noGenL l
  | .genv _ => false
/-- `noGenV` over a list. -/
def noGenL : StepList → Bool
  | .nil => true
  | .cons x t => noGenV x && noGenL t
end

mutual
/-- Well-formed step sources: sequences contain no generators; generators
may yield any well-formed item. -/
def wfV : StepVal → Bool
  | .s _ => true
  | .seqv l => noGenL l
  | .genv l => wfL l
/-- `wfV` over a list. -/
def wfL : StepList → Bool
  | .nil => true
  | .cons x t => wfV x && wfL t
end

end AnnotatedRun

namespace PropertiesApi

open PyDict

/-- The Python values flowing through the property bag: the JSON-compatible
inputs (str, int, bool, None, list, dict) plus the two shapes `freeze`
produces (tuple, `ImmutibleMapping`).  Non-JSON unhashable values such as
sets are not representable, so `freeze`'s final `raise TypeError`
('Unsupported value') branch is unreachable here. -/
inductive PVal where
  | pstr (s : String)
  | pint (n : Int)
  | pbool (b : Bool)
  | pnull
  | plist (l : List PVal)
  | pdict (d : List (String × PVal))
  | ptuple (l : List PVal)
  | pimap (d : List (String × PVal))

/-- `isinstance(obj, collections.Hashable)` in Python 2.7: a structural check
on the *class*.  A tuple is an instance of `Hashable` regardless of its
contents (tuple.__hash__ exists), while `dict` — and therefore its subclass
`ImmutibleMapping`, which defines no `__hash__` of its own — and `list` have
`__hash__ = None` and are not. -/
def isHashableInst : PVal → Bool
  | .pstr _ => true
  | .pint _ => true
  | .pbool _ => true
  | .pnull => true
  | .ptuple _ => true
  | .plist _ => false
  | .pdict _ => false
  | .pimap _ => false

mutual
/-- `freeze(obj)` (properties/api.py lines 20–28) together with the
`ImmutibleMapping.__init__` assertion (lines 9–11): a dict (or a dict
subclass such as `ImmutibleMapping`) is rebuilt as an `ImmutibleMapping`
with frozen values, whose constructor asserts
`all(isinstance(v, collections.Hashable) for v in self.itervalues())`;
a list becomes a tuple of frozen elements; any other representable value is
an instance of `Hashable` and is returned unchanged. -/
def freeze : PVal → Except String PVal
  | .pdict d => do
    let fd ← freezeDict d
    if fd.all (fun kv => isHashableInst kv.2) then Except.ok (.pimap fd)
    else Except.error "AssertionError: ImmutibleMapping values must be Hashable"
  | .pimap d => do
    let fd ← freezeDict d
    if fd.all (fun kv => isHashableInst kv.2) then Except.ok (.pimap fd)
    else Except.error "AssertionError: ImmutibleMapping values must be Hashable"
  | .plist l => do Except.ok (.ptuple (← freezeList l))
  | .pstr s => Except.ok (.pstr s)
  | .pint n => Except.ok (.pint n)
  | .pbool b => Except.ok (.pbool b)
  | .pnull => Except.ok .pnull
  | .ptuple l => Except.ok (.ptuple l)
/-- `tuple(freeze(x) for x in obj)`. -/
def freezeList : List PVal → Except String (List PVal)
  | [] => Except.ok []
  | x :: t => do pure ((← freeze x) :: (← freezeList t))
/-- `ImmutibleMapping((k, freeze(v)) for k, v in obj.iteritems())`'s value
freezing. -/
def freezeDict : List (String × PVal) → Except String (List (String × PVal))
  | [] => Except.ok []
  | (k, v) :: t => do pure ((k, ← freeze v) :: (← freezeDict t))
end

/-- `ImmutibleMapping.__setitem__`: unconditionally raises. -/
def imapSetItem (_d : List (String × PVal)) (_k : String) (_v : PVal) :
    Except String (List (String × PVal)) :=
  Except.error "TypeError: May not modify an ImmutibleMapping"

/-- `ImmutibleMapping.__delitem__`: unconditionally raises. -/
def imapDelItem (_d : List (String × PVal)) (_k : String) :
    Except String (List (String × PVal)) :=
  Except.error "TypeError: May not modify an ImmutibleMapping"

/-- The merge in `run_steps` (annotated_run.py lines 370–371):
`properties = factory_properties.copy(); properties.update(build_properties)`
— build properties override factory properties on key collisions. -/
def mergeProperties (factory build : List (String × PVal)) :
    List (String × PVal) :=
  build.foldl (fun acc kv => aset acc kv.1 kv.2) factory

/-- `PropertiesApi.__init__`: `self._properties = freeze(properties)` on the
merged bag. -/
def mkPropertiesApi (properties : List (String × PVal)) : Except String PVal :=
  freeze (.pdict properties)

end PropertiesApi

namespace PyDict

theorem alookup_aset_self {α : Type} (d : List (String × α)) (k : String) (v : α) :
    alookup (aset d k v) k = some v := by
  induction d with
  | nil => simp [aset, alookup]
  | cons kv rest ih =>
    obtain ⟨k', v'⟩ := kv
    by_cases hk : k' = k
    · simp [aset, alookup, hk]
    · simp [aset, alookup, hk, ih]

theorem alookup_aset_ne {α : Type} (d : List (String × α)) (k k' : String) (v : α)
    (h : k' ≠ k) : alookup (aset d k v) k' = alookup d k' := by
  have h1 : ¬ k = k' := fun hh => h hh.symm
  induction d with
  | nil =>
    simp only [aset, alookup]
    rw [if_neg h1]
  | cons kv rest ih =>
    obtain ⟨k0, v0⟩ := kv
    by_cases hk : k0 = k
    · have h2 : ¬ k0 = k' := by rw [hk]; exact h1
      simp only [aset, alookup, if_pos hk]
      rw [if_neg h1, if_neg h2]
    · simp only [aset, alookup, if_neg hk]
      by_cases hk' : k0 = k'
      · rw [if_pos hk', if_pos hk']
      · rw [if_neg hk', if_neg hk', ih]


end PyDict

namespace PyDict

theorem alookup_eq_none_of_not_mem {α : Type} (d : List (String × α)) (k : String)
    (h : k ∉ d.map Prod.fst) : alookup d k = none := by
  induction d with
  | nil => rfl
  | cons kv rest ih =>
    simp only [List.map_cons, List.mem_cons, not_or] at h
    simp only [alookup]
    rw [if_neg (fun hh => h.1 hh.symm)]
    exact ih h.2

theorem alookup_append {α : Type} (d1 d2 : List (String × α)) (k : String) :
    alookup (d1 ++ d2) k =
      (match alookup d1 k with
       | some v => some v
       | none => alookup d2 k) := by
  induction d1 with
  | nil => rfl
  | cons kv rest ih =>
    obtain ⟨k0, v0⟩ := kv
    by_cases hk : k0 = k
    · simp [alookup, hk]
    · simp only [List.cons_append, alookup, if_neg hk]
      exact ih

theorem aset_eq_append {α : Type} (d : List (String × α)) (k : String) (v : α)
    (h : alookup d k = none) : aset d k v = d ++ [(k, v)] := by
  induction d with
  | nil => rfl
  | cons kv rest ih =>
    obtain ⟨k0, v0⟩ := kv
    simp only [alookup] at h
    by_cases hk : k0 = k
    · rw [if_pos hk] at h; exact absurd h (by simp)
    · rw [if_neg hk] at h
      simp only [aset, if_neg hk, List.cons_append]
      rw [ih h]

end PyDict

namespace GtestUtils

open PyDict

/-! ### Field-preservation lemmas for the branch helpers -/

@[simp] theorem applyMasterName_testStatus (p : GTestLogParser) (line : String) :
    (applyMasterName p line).testStatus = p.testStatus := by
  unfold applyMasterName; (repeat' split) <;> rfl

@[simp] theorem applyMasterName_currentTest (p : GTestLogParser) (line : String) :
    (applyMasterName p line).currentTest = p.currentTest := by
  unfold applyMasterName; (repeat' split) <;> rfl

@[simp] theorem applyMasterName_failureDescription (p : GTestLogParser) (line : String) :
    (applyMasterName p line).failureDescription = p.failureDescription := by
  unfold applyMasterName; (repeat' split) <;> rfl

@[simp] theorem applyMasterName_retryingFailed (p : GTestLogParser) (line : String) :
    (applyMasterName p line).retryingFailed = p.retryingFailed := by
  unfold applyMasterName; (repeat' split) <;> rfl

@[simp] theorem applyMasterName_disabledTests (p : GTestLogParser) (line : String) :
    (applyMasterName p line).disabledTests = p.disabledTests := by
  unfold applyMasterName; (repeat' split) <;> rfl

@[simp] theorem applyMasterName_flakyTests (p : GTestLogParser) (line : String) :
    (applyMasterName p line).flakyTests = p.flakyTests := by
  unfold applyMasterName; (repeat' split) <;> rfl

@[simp] theorem forceStaleTimeout_currentTest (p : GTestLogParser) :
    (forceStaleTimeout p).currentTest = p.currentTest := by
  unfold forceStaleTimeout; (repeat' split) <;> rfl

@[simp] theorem forceStaleTimeout_failureDescription (p : GTestLogParser) :
    (forceStaleTimeout p).failureDescription = p.failureDescription := by
  unfold forceStaleTimeout; (repeat' split) <;> rfl

@[simp] theorem forceStaleTimeout_retryingFailed (p : GTestLogParser) :
    (forceStaleTimeout p).retryingFailed = p.retryingFailed := by
  unfold forceStaleTimeout; (repeat' split) <;> rfl

@[simp] theorem forceStaleTimeout_disabledTests (p : GTestLogParser) :
    (forceStaleTimeout p).disabledTests = p.disabledTests := by
  unfold forceStaleTimeout; (repeat' split) <;> rfl

@[simp] theorem forceStaleTimeout_flakyTests (p : GTestLogParser) :
    (forceStaleTimeout p).flakyTests = p.flakyTests := by
  unfold forceStaleTimeout; (repeat' split) <;> rfl

@[simp] theorem startNewTest_disabledTests (p : GTestLogParser) (t : String) :
    (startNewTest p t).disabledTests = p.disabledTests := by
  unfold startNewTest; simp only []; (repeat' split) <;> rfl

@[simp] theorem startNewTest_flakyTests (p : GTestLogParser) (t : String) :
    (startNewTest p t).flakyTests = p.flakyTests := by
  unfold startNewTest; simp only []; (repeat' split) <;> rfl

@[simp] theorem okBranch_disabledTests (p : GTestLogParser) (t line : String) :
    (okBranch p t line).disabledTests = p.disabledTests := by
  unfold okBranch; simp only []; (repeat' split) <;> rfl

@[simp] theorem okBranch_flakyTests (p : GTestLogParser) (t line : String) :
    (okBranch p t line).flakyTests = p.flakyTests := by
  unfold okBranch; simp only []; (repeat' split) <;> rfl

@[simp] theorem failBranch_disabledTests (p : GTestLogParser) (t line : String) :
    (failBranch p t line).disabledTests = p.disabledTests := by
  unfold failBranch; simp only []; (repeat' split) <;> rfl

@[simp] theorem failBranch_flakyTests (p : GTestLogParser) (t line : String) :
    (failBranch p t line).flakyTests = p.flakyTests := by
  unfold failBranch; simp only []; (repeat' split) <;> rfl

@[simp] theorem timeoutBranch_disabledTests (p : GTestLogParser) (t line : String) :
    (timeoutBranch p t line).disabledTests = p.disabledTests := by
  unfold timeoutBranch; simp only []; (repeat' split) <;> rfl

@[simp] theorem timeoutBranch_flakyTests (p : GTestLogParser) (t line : String) :
    (timeoutBranch p t line).flakyTests = p.flakyTests := by
  unfold timeoutBranch; simp only []; (repeat' split) <;> rfl

@[simp] theorem suppressionStartBranch_disabledTests (p : GTestLogParser) (h line : String) :
    (suppressionStartBranch p h line).disabledTests = p.disabledTests := by
  unfold suppressionStartBranch; simp only []; (repeat' split) <;> rfl

@[simp] theorem suppressionStartBranch_flakyTests (p : GTestLogParser) (h line : String) :
    (suppressionStartBranch p h line).flakyTests = p.flakyTests := by
  unfold suppressionStartBranch; simp only []; (repeat' split) <;> rfl

@[simp] theorem suppressionEndBranch_disabledTests (p : GTestLogParser) (line : String) :
    (suppressionEndBranch p line).disabledTests = p.disabledTests := rfl

@[simp] theorem suppressionEndBranch_flakyTests (p : GTestLogParser) (line : String) :
    (suppressionEndBranch p line).flakyTests = p.flakyTests := rfl

@[simp] theorem fallbackLine_disabledTests (p : GTestLogParser) (line : String) :
    (fallbackLine p line).disabledTests = p.disabledTests := by
  unfold fallbackLine; simp only []; (repeat' split) <;> rfl

@[simp] theorem fallbackLine_flakyTests (p : GTestLogParser) (line : String) :
    (fallbackLine p line).flakyTests = p.flakyTests := by
  unfold fallbackLine; simp only []; (repeat' split) <;> rfl

/-- A single `_ProcessLine` step keeps an indeterminate disabled/flaky count
indeterminate: the only branches that write these fields re-check
`isinstance(..., int)` and fall back to `'some'`. -/
theorem sticky_step (p : GTestLogParser) (line : String) :
    ((p.disabledTests = TestCount.indeterminate →
        (processLine p line).disabledTests = TestCount.indeterminate) ∧
     (p.flakyTests = TestCount.indeterminate →
        (processLine p line).flakyTests = TestCount.indeterminate)) := by
  constructor <;> intro h <;> unfold processLine <;> (repeat' split) <;>
    simp_all [TestCount.isNum, apply_ite GTestLogParser.disabledTests, apply_ite GTestLogParser.flakyTests]


/-! ### Claim theorems for the log classifier -/

/-- **C9.** Once the disabled-tests count (or the flaky-tests count) has been
set to the indeterminate sentinel `'some'`, no subsequent line — including a
later well-formed banner with a positive integer count — ever restores it to
an integer: the sentinel is sticky for the remainder of the run. -/
theorem C9_indeterminate_sticky (p : GTestLogParser) (lines : List String) :
    (p.disabledTests = TestCount.indeterminate →
      DisabledTests (processLines p lines) = TestCount.indeterminate) ∧
    (p.flakyTests = TestCount.indeterminate →
      FlakyTests (processLines p lines) = TestCount.indeterminate) := by
  induction lines generalizing p with
  | nil => exact ⟨fun h => h, fun h => h⟩
  | cons l rest ih =>
    refine ⟨fun h => ?_, fun h => ?_⟩
    · exact (ih (processLine p l)).1 ((sticky_step p l).1 h)
    · exact (ih (processLine p l)).2 ((sticky_step p l).2 h)

/-- Witness for C9: from a state carrying the `'some'` sentinel, later
well-formed positive banners do not restore integer counts. -/
theorem C9_indeterminate_sticky_witness :
    DisabledTests (processLines
        { initParser with
            disabledTests := TestCount.indeterminate,
            flakyTests := TestCount.indeterminate }
        ["YOU HAVE 5 DISABLED TESTS", "YOU HAVE 7 FLAKY TESTS"]) =
      TestCount.indeterminate ∧
    FlakyTests (processLines
        { initParser with
            disabledTests := TestCount.indeterminate,
            flakyTests := TestCount.indeterminate }
        ["YOU HAVE 5 DISABLED TESTS", "YOU HAVE 7 FLAKY TESTS"]) =
      TestCount.indeterminate :=
  ⟨(C9_indeterminate_sticky _ _).1 rfl, (C9_indeterminate_sticky _ _).2 rfl⟩

/-- **C4.** A disabled-tests banner with a positive count `n` (while the
stored count is still an integer) makes `DisabledTests()` return `n`; a
banner whose count is non-positive yields the indeterminate sentinel `'some'`
rather than silently defaulting to zero; and the same policy holds for the
flaky-tests banner and `FlakyTests()`.  (The banner regex captures `\d+`, so
a banner with an unparsable count cannot match at all: the `int()` fallback
in the source is unreachable.) -/
theorem C4_count_banners (p : GTestLogParser) (line : String) (n : Nat)
    (hrtc : matchRunTestCases line = false)
    (hpass : matchTestPassed line = false) :
    (matchDisabled line = some n → 0 < n → p.disabledTests.isNum = true →
      DisabledTests (processLine p line) = TestCount.num n) ∧
    (matchDisabled line = some n → n = 0 →
      DisabledTests (processLine p line) = TestCount.indeterminate) ∧
    (matchDisabled line = none → matchFlaky line = some n → 0 < n →
        p.flakyTests.isNum = true →
      FlakyTests (processLine p line) = TestCount.num n) ∧
    (matchDisabled line = none → matchFlaky line = some n → n = 0 →
      FlakyTests (processLine p line) = TestCount.indeterminate) := by
  refine ⟨fun hd hn hi => ?_, fun hd hn => ?_,
          fun hd hf hn hi => ?_, fun hd hf hn => ?_⟩ <;>
    unfold processLine <;>
    simp_all [hrtc, hpass, DisabledTests, FlakyTests]

/-- Witness for C4 at concrete banner lines. -/
theorem C4_count_banners_witness :
    DisabledTests (processLine initParser "YOU HAVE 3 DISABLED TESTS") =
      TestCount.num 3 ∧
    DisabledTests (processLine initParser "YOU HAVE 0 DISABLED TESTS") =
      TestCount.indeterminate ∧
    FlakyTests (processLine initParser "YOU HAVE 7 FLAKY TESTS") =
      TestCount.num 7 ∧
    FlakyTests (processLine initParser "YOU HAVE 0 FLAKY TESTS") =
      TestCount.indeterminate :=
  ⟨(C4_count_banners initParser _ 3 (by decide) (by decide)).1
      (by decide) (by decide) (by decide),
   (C4_count_banners initParser _ 0 (by decide) (by decide)).2.1
      (by decide) rfl,
   (C4_count_banners initParser _ 7 (by decide) (by decide)).2.2.1
      (by decide) (by decide) (by decide) (by decide),
   (C4_count_banners initParser _ 0 (by decide) (by decide)).2.2.2
      (by decide) (by decide) rfl⟩

/-- **C10.** For every test name `t` (including tests that passed with status
`OK` and tests never seen in the log), `FailureDescription(t)` returns a
non-empty list whose first element is the string `"t: "`; it never returns
the empty list (despite its docstring's claim to return `[]`). -/
theorem C10_failure_description_head (p : GTestLogParser) (t : String) :
    FailureDescription p t ≠ [] ∧
    (FailureDescription p t).head? = some (t ++ ": ") := by
  simp [FailureDescription]

/-- **C1, counterexample.** After a test fails with a recorded description,
`RETRYING FAILED TESTS:` is seen and the test is re-run and passes, the final
status is `warning` — but the stored description is only the fresh
placeholder `Did not complete.` plus the `RETRY OUTPUT:` separator: the
original pre-retry failure text (`original failure line`) is **absent**,
because the `[ RUN ]` handler overwrites the stored entry before seeding the
retry description from it.  This refutes the claim that the description
contains the original failure text followed by the separator. -/
theorem C1_retry_counterexample :
    (let final := processLines initParser
        ["[ RUN ] Foo.Bar", "original failure line", "[ FAILED ] Foo.Bar",
         "RETRYING FAILED TESTS:", "[ RUN ] Foo.Bar", "[ OK ] Foo.Bar"]
     alookup final.testStatus "Foo.Bar" =
        some ("warning", ["Did not complete.", "", "RETRY OUTPUT:", ""]) ∧
      "original failure line" ∉
        ((alookup final.testStatus "Foo.Bar").getD ("", [])).2) := by
  decide

/-- **C1, amended.** In retry mode, running `[ RUN ] T` then `[ OK ] T`
(with no line in between) leaves `T` in status `warning` whose description is
exactly the placeholder `Did not complete.` followed by the `RETRY OUTPUT:`
separator — the retry output is appended to the freshly reset placeholder,
not to the original failure context, which is discarded. -/
theorem C1_retry_description_replaced (p : GTestLogParser) (t line1 line2 : String)
    (hretry : p.retryingFailed = true) (hcur : p.currentTest = "")
    (h1s : matchTestStart line1 = some t)
    (h1a : matchRunTestCases line1 = false) (h1b : matchTestPassed line1 = false)
    (h1c : matchDisabled line1 = none) (h1d : matchFlaky line1 = none)
    (h2o : matchTestOk line2 = some t)
    (h2a : matchRunTestCases line2 = false) (h2b : matchTestPassed line2 = false)
    (h2c : matchDisabled line2 = none) (h2d : matchFlaky line2 = none)
    (h2e : matchTestStart line2 = none) :
    alookup (processLine (processLine p line1) line2).testStatus t =
      some ("warning", ["Did not complete.", "", "RETRY OUTPUT:", ""]) := by
  have hfst : forceStaleTimeout (applyMasterName p line1) = applyMasterName p line1 := by
    unfold forceStaleTimeout
    simp [hcur]
  have hp1 : processLine p line1 = startNewTest (applyMasterName p line1) t := by
    unfold processLine
    simp [h1a, h1b, h1c, h1d, h1s, hfst]
  have h1ts : (startNewTest (applyMasterName p line1) t).testStatus =
      aset (aset p.testStatus t ("started", ["Did not complete."]))
        t ("started", ["Did not complete.", "", "RETRY OUTPUT:", ""]) := by
    unfold startNewTest
    simp [hretry, alookup_aset_self]
  have h1fd : (startNewTest (applyMasterName p line1) t).failureDescription =
      ["Did not complete.", "", "RETRY OUTPUT:", ""] := by
    unfold startNewTest
    simp [hretry, alookup_aset_self]
  have h1rt : (startNewTest (applyMasterName p line1) t).retryingFailed = true := by
    unfold startNewTest
    simp [hretry]
  have hp2 : processLine (processLine p line1) line2 =
      okBranch (applyMasterName (processLine p line1) line2) t line2 := by
    unfold processLine
    simp [h2a, h2b, h2c, h2d, h2e, h2o]
  have hst : statusOfTest (applyMasterName (processLine p line1) line2) t = "started" := by
    unfold statusOfTest
    rw [applyMasterName_testStatus, hp1, h1ts, alookup_aset_self]
    rfl
  have hrt2 : (processLine p line1).retryingFailed = true := by
    rw [hp1, h1rt]
  have hok : (okBranch (applyMasterName (processLine p line1) line2) t line2).testStatus =
      aset (processLine p line1).testStatus t
        ("warning", (processLine p line1).failureDescription) := by
    unfold okBranch
    simp [hst, hrt2]
  rw [hp2, hok, alookup_aset_self, hp1, h1fd]

/-- Witness for the amended C1 at a concrete retry trace. -/
theorem C1_retry_description_replaced_witness :
    alookup (processLine
        (processLine { initParser with retryingFailed := true } "[ RUN ] Foo.Bar")
        "[ OK ] Foo.Bar").testStatus "Foo.Bar" =
      some ("warning", ["Did not complete.", "", "RETRY OUTPUT:", ""]) :=
  C1_retry_description_replaced _ "Foo.Bar" _ _ rfl rfl (by decide) (by decide)
    (by decide) (by decide) (by decide) (by decide) (by decide) (by decide)
    (by decide) (by decide) (by decide)

/-- **C2, counterexample.** Processing a second `[ RUN ] Foo.Bar` right after
a first one does route through the forced-timeout step, but the forced entry
is `("timeout", [])` — the accumulated (empty) failure description — not the
default description `Did not complete.` the claim states. -/
theorem C2_duplicate_run_counterexample :
    (let p1 := processLine initParser "[ RUN ] Foo.Bar"
     processLine p1 "[ RUN ] Foo.Bar" =
        startNewTest (forceStaleTimeout (applyMasterName p1 "[ RUN ] Foo.Bar")) "Foo.Bar" ∧
      alookup (forceStaleTimeout (applyMasterName p1 "[ RUN ] Foo.Bar")).testStatus
          "Foo.Bar" = some ("timeout", ([] : List String)) ∧
      (("timeout", ([] : List String)) : String × List String) ≠
        ("timeout", ["Did not complete."])) := by
  decide

/-- **C2, amended.** When `[ RUN ] T` arrives while `T` is still `started`,
processing first force-classifies the stale entry to `timeout` carrying the
accumulated failure description (empty if nothing intervened — *not* the
default `Did not complete.` placeholder), and only then records the fresh
`started` entry with the placeholder description. -/
theorem C2_duplicate_run_timeout (p : GTestLogParser) (line t : String) (d : List String)
    (hm : matchTestStart line = some t)
    (h1 : matchRunTestCases line = false) (h2 : matchTestPassed line = false)
    (h3 : matchDisabled line = none) (h4 : matchFlaky line = none)
    (hcur : p.currentTest = t) (ht : ¬ t = "")
    (hstat : alookup p.testStatus t = some ("started", d))
    (hretry : p.retryingFailed = false) :
    processLine p line = startNewTest (forceStaleTimeout (applyMasterName p line)) t ∧
    alookup (forceStaleTimeout (applyMasterName p line)).testStatus t =
      some ("timeout", p.failureDescription) ∧
    alookup (processLine p line).testStatus t =
      some ("started", ["Did not complete."]) := by
  have hstep : processLine p line =
      startNewTest (forceStaleTimeout (applyMasterName p line)) t := by
    unfold processLine
    simp [h1, h2, h3, h4, hm]
  have hfstatus : statusOfTest (applyMasterName p line) p.currentTest = "started" := by
    unfold statusOfTest
    rw [applyMasterName_testStatus, hcur, hstat]
    rfl
  have hforce : (forceStaleTimeout (applyMasterName p line)).testStatus =
      aset (applyMasterName p line).testStatus t
        ("timeout", (applyMasterName p line).failureDescription) := by
    unfold forceStaleTimeout
    rw [applyMasterName_currentTest]
    rw [if_neg (by rw [hcur]; exact ht), if_pos (by rw [hcur] at hfstatus ⊢; exact hfstatus)]
    simp [hcur]
  have hstarted : (startNewTest (forceStaleTimeout (applyMasterName p line)) t).testStatus =
      aset (forceStaleTimeout (applyMasterName p line)).testStatus t
        ("started", ["Did not complete."]) := by
    unfold startNewTest
    simp [hretry]
  refine ⟨hstep, ?_, ?_⟩
  · rw [hforce, alookup_aset_self, applyMasterName_failureDescription]
  · rw [hstep, hstarted, alookup_aset_self]

/-- Witness for the amended C2 at the concrete duplicate-`RUN` trace. -/
theorem C2_duplicate_run_timeout_witness :
    alookup (forceStaleTimeout (applyMasterName
        (processLine initParser "[ RUN ] Foo.Bar") "[ RUN ] Foo.Bar")).testStatus
      "Foo.Bar" = some ("timeout",
        (processLine initParser "[ RUN ] Foo.Bar").failureDescription) ∧
    alookup (processLine (processLine initParser "[ RUN ] Foo.Bar")
        "[ RUN ] Foo.Bar").testStatus "Foo.Bar" =
      some ("started", ["Did not complete."]) :=
  ⟨(C2_duplicate_run_timeout _ _ "Foo.Bar" ["Did not complete."] (by decide)
      (by decide) (by decide) (by decide) (by decide) (by decide) (by decide)
      (by decide) (by decide)).2.1,
   (C2_duplicate_run_timeout _ _ "Foo.Bar" ["Did not complete."] (by decide)
      (by decide) (by decide) (by decide) (by decide) (by decide) (by decide)
      (by decide) (by decide)).2.2⟩

end GtestUtils

namespace AnnotatedRun

open PyDict

/-- Closed form of `_inner` with a follow-up callback present; the
presentation handed to the callback carries `FAILURE` exactly when the
return code is positive. -/
theorem innerCallback_some_eq (step : Step) (retcode : Int) (f : StepData → StepData) :
    innerCallback step retcode (some f) =
      Except.ok
        { f ⟨step, retcode,
              if retcode > 0 then { status := some "FAILURE" } else {}⟩ with
            presentation :=
              finalize (f ⟨step, retcode,
                if retcode > 0 then { status := some "FAILURE" } else {}⟩).presentation } := by
  by_cases hr : retcode > 0 <;>
    simp [innerCallback, setStatus, finalize, hr, STATUSES, pure, Except.pure, bind, Except.bind]

/-- Closed form of `_inner` with no follow-up callback. -/
theorem innerCallback_none_eq (step : Step) (retcode : Int) :
    innerCallback step retcode none = Except.ok (cannedResult step retcode) := by
  by_cases hr : retcode > 0 <;>
    simp [innerCallback, setStatus, finalize, hr, STATUSES, pure, Except.pure,
          bind, Except.bind, cannedResult]

/-- **C3, counterexample.** A step whose return code is `-1` (non-zero, as a
subprocess killed by a signal reports) with no follow-up callback ends with
*no* presentation status set: `_inner` tests `retcode > 0`, not
`retcode != 0`, so the claim that every non-zero return code defaults the
status to FAILURE is false. -/
theorem C3_negative_retcode_counterexample :
    (innerCallback { name := "compile" } (-1) none).map
        (fun sd => sd.presentation.status) = Except.ok none ∧
    (Except.ok none : Except String (Option String)) ≠ Except.ok (some "FAILURE") := by
  constructor
  · rfl
  · simp

/-- **C3, amended.** Building a StepResult defaults the presentation status
to `FAILURE` exactly when the return code is **positive** (zero *and
negative* return codes set no status from the return code), unless the
follow-up callback sets a status, which then wins. -/
theorem C3_retcode_failure_default (step : Step) (retcode : Int)
    (f g : StepData → StepData) (s : String)
    (hf : ∀ sd, (f sd).presentation.status = sd.presentation.status)
    (hg : ∀ sd, (g sd).presentation.status = some s) :
    (∃ sd, innerCallback step retcode (some f) = Except.ok sd ∧
       sd.presentation.status = (if retcode > 0 then some "FAILURE" else none)) ∧
    (∃ sd, innerCallback step retcode (some g) = Except.ok sd ∧
       sd.presentation.status = some s) := by
  refine ⟨⟨_, innerCallback_some_eq step retcode f, ?_⟩,
          ⟨_, innerCallback_some_eq step retcode g, ?_⟩⟩
  · show (finalize _).status = _
    rw [show ∀ q, (finalize q).status = q.status from fun _ => rfl, hf]
    split <;> rfl
  · show (finalize _).status = _
    rw [show ∀ q, (finalize q).status = q.status from fun _ => rfl, hg]

/-- Witness for the amended C3: a positive return code with a no-op callback
defaults to FAILURE; a callback that sets WARNING overrides it. -/
theorem C3_retcode_failure_default_witness :
    (∃ sd, innerCallback { name := "compile" } 2 (some id) = Except.ok sd ∧
       sd.presentation.status = (if (2 : Int) > 0 then some "FAILURE" else none)) ∧
    (∃ sd, innerCallback { name := "compile" } 2
        (some (fun sd => { sd with presentation :=
          { sd.presentation with status := some "WARNING" } })) = Except.ok sd ∧
       sd.presentation.status = some "WARNING") :=
  C3_retcode_failure_default { name := "compile" } 2 id _ "WARNING"
    (fun _ => rfl) (fun _ => rfl)

/-- **C6.** Once a `StepPresentation` is finalized, every mutator (status,
step_text, step_summary_text) fails its `assert not self._finalized`, and
reads of `logs`/`perf_logs` return independent deep copies: mutating the
returned value does not change the presentation's state (while the value
read is equal to the stored one). -/
theorem C6_finalized_immutable (p : StepPresentation) (h : p.finalized = true) :
    (∀ v, setStatus p v = Except.error "assert not self._finalized") ∧
    (∀ v, setStepText p v = Except.error "assert not self._finalized") ∧
    (∀ v, setStepSummaryText p v = Except.error "assert not self._finalized") ∧
    (∀ f, mutateThroughLogs p f = p) ∧
    (∀ f, mutateThroughPerfLogs p f = p) ∧
    readLogs p = p.logs ∧ readPerfLogs p = p.perfLogs := by
  refine ⟨fun v => ?_, fun v => ?_, fun v => ?_, fun f => ?_, fun f => ?_, rfl, rfl⟩ <;>
    simp [setStatus, setStepText, setStepSummaryText,
          mutateThroughLogs, mutateThroughPerfLogs, h]

/-- Witness for C6 on a concrete finalized presentation. -/
theorem C6_finalized_immutable_witness :
    setStatus { finalized := true, logs := [("stdio", ["a line"])] } "SUCCESS" =
      Except.error "assert not self._finalized" ∧
    setStepText { finalized := true, logs := [("stdio", ["a line"])] } "t" =
      Except.error "assert not self._finalized" ∧
    mutateThroughLogs { finalized := true, logs := [("stdio", ["a line"])] }
        (fun l => ("extra", ["x"]) :: l) =
      { finalized := true, logs := [("stdio", ["a line"])] } :=
  ⟨(C6_finalized_immutable _ rfl).1 "SUCCESS",
   (C6_finalized_immutable _ rfl).2.1 "t",
   (C6_finalized_immutable _ rfl).2.2.2.1 _⟩

/-- The successful run of the loop from any history disjoint from the step
names, with pairwise-distinct names: every step is recorded, in order. -/
theorem runStepsLoop_go (steps : List (Step × Int)) : ∀ h0 : StepHistory,
    (∀ sr ∈ steps, alookup h0 sr.1.name = none) →
    (steps.map (fun sr => sr.1.name)).Nodup →
    steps.foldlM (fun h sr => runOneStep h sr.1 sr.2) h0 =
      Except.ok (h0 ++ steps.map (fun sr => (sr.1.name,
        cannedResult sr.1 sr.2))) := by
  induction steps with
  | nil => intro h0 _ _; simp [pure, Except.pure]
  | cons sr rest ih =>
    intro h0 hdisj hnd
    have hnone : alookup h0 sr.1.name = none := hdisj sr (by simp)
    have hstep : runOneStep h0 sr.1 sr.2 =
        Except.ok (h0 ++ [(sr.1.name,
          cannedResult sr.1 sr.2)]) := by
      unfold runOneStep
      rw [hnone]
      simp only [Option.isSome_none, Bool.false_eq_true, if_false]
      rw [innerCallback_none_eq]
      show Except.ok (aset h0 sr.1.name (cannedResult sr.1 sr.2)) = _
      rw [aset_eq_append _ _ _ hnone]
    have hnd' : (rest.map (fun sr => sr.1.name)).Nodup := by
      simpa using hnd.of_cons
    have hhead : sr.1.name ∉ rest.map (fun sr => sr.1.name) := by
      have := hnd
      simp only [List.map_cons, List.nodup_cons] at this
      exact this.1
    have hdisj' : ∀ s' ∈ rest, alookup (h0 ++ [(sr.1.name,
        cannedResult sr.1 sr.2)])
        s'.1.name = none := by
      intro s' hs'
      rw [alookup_append]
      rw [hdisj s' (by simp [hs'])]
      simp only [alookup]
      have hne : ¬ sr.1.name = s'.1.name := by
        intro hh
        exact hhead (by rw [hh]; exact List.mem_map_of_mem _ hs')
      rw [if_neg hne]
    calc (sr :: rest).foldlM (fun h s' => runOneStep h s'.1 s'.2) h0
        = rest.foldlM (fun h s' => runOneStep h s'.1 s'.2)
            (h0 ++ [(sr.1.name,
              cannedResult sr.1 sr.2)]) := by
          rw [List.foldlM_cons, hstep]
          rfl
      _ = _ := by
          rw [ih _ hdisj' hnd']
          simp

/-- The failing run: if some step's name collides with the seed history or
the names are not pairwise distinct, the loop aborts with the
duplicate-step-name assertion. -/
theorem runStepsLoop_dup (steps : List (Step × Int)) : ∀ h0 : StepHistory,
    ((∃ sr ∈ steps, (alookup h0 sr.1.name).isSome = true) ∨
      ¬ (steps.map (fun sr => sr.1.name)).Nodup) →
    (steps.foldlM (fun h sr => runOneStep h sr.1 sr.2) h0).isOk = false := by
  induction steps with
  | nil =>
    intro h0 h
    rcases h with ⟨_, hmem, _⟩ | hnd
    · exact absurd hmem (List.not_mem_nil _)
    · exact absurd List.nodup_nil hnd
  | cons sr rest ih =>
    intro h0 h
    by_cases hc : (alookup h0 sr.1.name).isSome = true
    · have : runOneStep h0 sr.1 sr.2 =
          Except.error ("Step \"" ++ sr.1.name ++ "\" is already in step_history!") := by
        unfold runOneStep
        rw [if_pos hc]
      rw [List.foldlM_cons, this]
      rfl
    · have hnone : alookup h0 sr.1.name = none := by
        cases hval : alookup h0 sr.1.name
        · rfl
        · exact absurd (by rw [hval]; rfl) hc
      have hstep : runOneStep h0 sr.1 sr.2 =
          Except.ok (h0 ++ [(sr.1.name,
            cannedResult sr.1 sr.2)]) := by
        unfold runOneStep
        rw [hnone]
        simp only [Option.isSome_none, Bool.false_eq_true, if_false]
        rw [innerCallback_none_eq]
        show Except.ok (aset h0 sr.1.name (cannedResult sr.1 sr.2)) = _
        rw [aset_eq_append _ _ _ hnone]
      have hnext : ((∃ s' ∈ rest, (alookup (h0 ++ [(sr.1.name,
          cannedResult sr.1 sr.2)])
          s'.1.name).isSome = true) ∨
          ¬ (rest.map (fun s' => s'.1.name)).Nodup) := by
        rcases h with ⟨s', hs', hsome⟩ | hnd
        · rcases List.mem_cons.1 hs' with heq | hmem
          · subst heq
            exact absurd hsome hc
          · refine Or.inl ⟨s', hmem, ?_⟩
            rw [alookup_append]
            cases hval : alookup h0 s'.1.name
            · simp only [alookup]
              by_cases hnm : sr.1.name = s'.1.name
              · rw [if_pos hnm]; rfl
              · rw [hval] at hsome; exact absurd hsome (by simp)
            · simp
        · by_cases hndr : (rest.map (fun s' => s'.1.name)).Nodup
          · by_cases hmem : sr.1.name ∈ rest.map (fun s' => s'.1.name)
            · obtain ⟨s', hs', hname⟩ := List.mem_map.1 hmem
              refine Or.inl ⟨s', hs', ?_⟩
              rw [alookup_append]
              cases hval : alookup h0 s'.1.name
              · simp only [alookup]
                rw [if_pos hname.symm]
                rfl
              · simp
            · exact absurd (List.nodup_cons.2 ⟨hmem, hndr⟩) (by simpa using hnd)
          · exact Or.inr hndr
      calc ((sr :: rest).foldlM (fun h s' => runOneStep h s'.1 s'.2) h0).isOk
          = (rest.foldlM (fun h s' => runOneStep h s'.1 s'.2) (h0 ++ [(sr.1.name,
              cannedResult sr.1 sr.2)])).isOk := by
            rw [List.foldlM_cons, hstep]
            rfl
        _ = false := ih _ hnext

end AnnotatedRun

namespace AnnotatedRun

open PyDict

/-- **C7.** Within one orchestration run, executing a second step whose name
already appears in the step history fails with the duplicate-step-name
assertion before the step is recorded (the loop checks the history and
aborts, so nothing is added); executing steps with pairwise-distinct names
records them all, in insertion order, and the `nth`/`last` queries see that
order. -/
theorem C7_step_history (steps : List (Step × Int)) :
    ((steps.map (fun sr => sr.1.name)).Nodup →
      runStepsLoop steps =
        Except.ok (steps.map (fun sr => (sr.1.name, cannedResult sr.1 sr.2))) ∧
      (∀ n : Nat,
        nthStep (steps.map (fun sr => (sr.1.name, cannedResult sr.1 sr.2))) n =
          (steps.get? n).map (fun sr => cannedResult sr.1 sr.2)) ∧
      lastStep (steps.map (fun sr => (sr.1.name, cannedResult sr.1 sr.2))) =
        steps.getLast?.map (fun sr => cannedResult sr.1 sr.2)) ∧
    (¬ (steps.map (fun sr => sr.1.name)).Nodup →
      (runStepsLoop steps).isOk = false) := by
  constructor
  · intro hnd
    refine ⟨?_, ?_, ?_⟩
    · have h := runStepsLoop_go steps [] (fun sr _ => rfl) hnd
      simpa [runStepsLoop] using h
    · intro n
      simp only [nthStep, List.map_map, List.get?_eq_getElem?, List.getElem?_map]
      cases steps[n]? <;> rfl
    · simp only [lastStep, List.map_map, List.getLast?_map]
      cases steps.getLast? <;> rfl
  · intro hnd
    exact runStepsLoop_dup steps [] (Or.inr hnd)

/-- Witness for C7: a two-step run with distinct names succeeds in order and
answers the `nth`/`last` queries; a run repeating a name fails. -/
theorem C7_step_history_witness :
    runStepsLoop [({ name := "compile" }, 0), ({ name := "test" }, 1)] =
      Except.ok [("compile", cannedResult { name := "compile" } 0),
                 ("test", cannedResult { name := "test" } 1)] ∧
    nthStep [("compile", cannedResult { name := "compile" } 0),
             ("test", cannedResult { name := "test" } 1)] 0 =
      some (cannedResult { name := "compile" } 0) ∧
    lastStep [("compile", cannedResult { name := "compile" } 0),
              ("test", cannedResult { name := "test" } 1)] =
      some (cannedResult { name := "test" } 1) ∧
    (runStepsLoop [({ name := "build" }, 0), ({ name := "build" }, 1)]).isOk = false := by
  have h1 := (C7_step_history [({ name := "compile" }, 0), ({ name := "test" }, 1)]).1
    (by decide)
  have h2 := (C7_step_history [({ name := "build" }, 0), ({ name := "build" }, 1)]).2
    (by decide)
  refine ⟨h1.1, ?_, ?_, h2⟩
  · have := h1.2.1 0
    simpa using this
  · have := h1.2.2
    simpa using this

end AnnotatedRun

namespace AnnotatedRun

mutual
/-- With no generator inside, `flattened` yields exactly the depth-first
leaves. -/
theorem flatItem_noGen : ∀ v : StepVal, noGenV v = true →
    flatItem v = (leavesV v).map StepVal.s
  | .s st, _ => rfl
  | .seqv l, h => flatList_noGen l (by simpa [noGenV] using h)
  | .genv l, h => by simp [noGenV] at h
/-- `flatItem_noGen` over a list. -/
theorem flatList_noGen : ∀ l : StepList, noGenL l = true →
    flatList l = (leavesL l).map StepVal.s
  | .nil, _ => rfl
  | .cons x t, h => by
    have hx : noGenV x = true := by
      have := h
      simp only [noGenL, Bool.and_eq_true] at this
      exact this.1
    have ht : noGenL t = true := by
      have := h
      simp only [noGenL, Bool.and_eq_true] at this
      exact this.2
    show flatItem x ++ flatList t = (leavesV x ++ leavesL t).map StepVal.s
    rw [flatItem_noGen x hx, flatList_noGen t ht, List.map_append]
end

/-- `fixup_seed_steps` sees only step dicts in a flattened generator-free
sequence. -/
theorem asSteps_map (xs : List Step) :
    asSteps (xs.map StepVal.s) = Except.ok xs := by
  induction xs with
  | nil => rfl
  | cons x t ih => simp [asSteps, ih, pure, Except.pure, bind, Except.bind]

/-- `fixup_seed_steps` only rewrites the `seed_steps` tag of the first step:
the step names are unchanged. -/
theorem fixup_seed_steps_names (xs : List Step) :
    (fixup_seed_steps xs).map Step.name = xs.map Step.name := by
  cases xs with
  | nil => rfl
  | cons s0 rest =>
    by_cases h : s0.seedSteps.isSome <;> simp [fixup_seed_steps, h]

mutual
/-- On a well-formed source, `ensure_sequence_of_steps` succeeds and its
output lists the depth-first leaves' names in order. -/
theorem ensure_names : ∀ v : StepVal, wfV v = true →
    ∃ out, ensure v = Except.ok out ∧ out.map Step.name = (leavesV v).map Step.name
  | .s st, _ => ⟨[st], rfl, rfl⟩
  | .seqv l, h => by
    have hng : noGenL l = true := by simpa [wfV] using h
    refine ⟨fixup_seed_steps (leavesL l), ?_, ?_⟩
    · show (do pure (fixup_seed_steps (← asSteps (flatList l)))) = _
      rw [flatList_noGen l hng, asSteps_map]
      rfl
    · rw [fixup_seed_steps_names]
      rfl
  | .genv l, h => by
    obtain ⟨out, he, hn⟩ := ensureList_names l (by simpa [wfV] using h)
    exact ⟨out, he, hn⟩
/-- `ensure_names` over the items drained from a generator. -/
theorem ensureList_names : ∀ l : StepList, wfL l = true →
    ∃ out, ensureList l = Except.ok out ∧ out.map Step.name = (leavesL l).map Step.name
  | .nil, _ => ⟨[], rfl, rfl⟩
  | .cons x t, h => by
    have hx : wfV x = true := by
      have := h
      simp only [wfL, Bool.and_eq_true] at this
      exact this.1
    have ht : wfL t = true := by
      have := h
      simp only [wfL, Bool.and_eq_true] at this
      exact this.2
    obtain ⟨o1, e1, n1⟩ := ensure_names x hx
    obtain ⟨o2, e2, n2⟩ := ensureList_names t ht
    refine ⟨o1 ++ o2, ?_, ?_⟩
    · show (do pure ((← ensure x) ++ (← ensureList t))) = _
      rw [e1, e2]
      rfl
    · show (o1 ++ o2).map Step.name = (leavesV x ++ leavesL t).map Step.name
      rw [List.map_append, List.map_append, n1, n2]
end

/-- **C5.** For every well-formed step source (single step, arbitrarily
nested sequence, or generator of these), `ensure_sequence_of_steps` succeeds
and its flattened output preserves the relative order of all leaf steps as
encountered by a depth-first, left-to-right traversal; and for a yielded
sequence whose first flattened step lacks the `seed_steps` tag, that tag is
synthesized on the first step as the ordered list of every step name in the
sequence (the other steps are unchanged). -/
theorem C5_sequencer_order_and_seeding (v : StepVal) (l : StepList)
    (s0 : Step) (rest : List Step)
    (hv : wfV v = true) (hl : noGenL l = true)
    (hfirst : leavesL l = s0 :: rest) (htag : s0.seedSteps = none) :
    (∃ out, ensure v = Except.ok out ∧
       out.map Step.name = (leavesV v).map Step.name) ∧
    ensure (StepVal.seqv l) = Except.ok
      ({ s0 with seedSteps := some ((s0 :: rest).map Step.name) } :: rest) := by
  constructor
  · exact ensure_names v hv
  · show (do pure (fixup_seed_steps (← asSteps (flatList l)))) = _
    rw [flatList_noGen l hl, hfirst, asSteps_map]
    show Except.ok (fixup_seed_steps (s0 :: rest)) = _
    simp [fixup_seed_steps, htag]

/-- Witness for C5 at the concrete source
`generator [ [A, [B]], C ]`: depth-first order `A, B, C`, with `A` (the
first step of the yielded sequence, which lacks the tag) seeded with
`["A", "B"]`. -/
theorem C5_sequencer_order_and_seeding_witness :
    (∃ out,
       ensure (StepVal.genv (.cons
         (.seqv (.cons (.s { name := "A" }) (.cons
           (.seqv (.cons (.s { name := "B" }) .nil)) .nil)))
         (.cons (.s { name := "C" }) .nil))) = Except.ok out ∧
       out.map Step.name =
         (leavesV (StepVal.genv (.cons
           (.seqv (.cons (.s { name := "A" }) (.cons
             (.seqv (.cons (.s { name := "B" }) .nil)) .nil)))
           (.cons (.s { name := "C" }) .nil)))).map Step.name) ∧
    ensure (StepVal.seqv (.cons (.s { name := "A" }) (.cons
        (.seqv (.cons (.s { name := "B" }) .nil)) .nil))) = Except.ok
      [{ name := "A", seedSteps := some ["A", "B"] }, { name := "B" }] :=
  C5_sequencer_order_and_seeding
    (StepVal.genv (.cons
      (.seqv (.cons (.s { name := "A" }) (.cons
        (.seqv (.cons (.s { name := "B" }) .nil)) .nil)))
      (.cons (.s { name := "C" }) .nil)))
    (.cons (.s { name := "A" }) (.cons
      (.seqv (.cons (.s { name := "B" }) .nil)) .nil))
    { name := "A" } [{ name := "B" }] rfl rfl rfl rfl

end AnnotatedRun

namespace PropertiesApi

open PyDict

/-- Build properties override factory properties on key collisions (the
`dict.update` semantics of the merge in `run_steps`). -/
theorem mergeProperties_lookup (f b : List (String × PVal)) (k : String)
    (hb : (b.map Prod.fst).Nodup) :
    alookup (mergeProperties f b) k =
      (match alookup b k with
       | some v => some v
       | none => alookup f k) := by
  induction b generalizing f with
  | nil => rfl
  | cons kv t ih =>
    obtain ⟨k0, v0⟩ := kv
    simp only [List.map_cons, List.nodup_cons] at hb
    have step : mergeProperties f ((k0, v0) :: t) = mergeProperties (aset f k0 v0) t := rfl
    rw [step, ih (aset f k0 v0) hb.2]
    by_cases hkk : k0 = k
    · subst hkk
      have hnone : alookup t k0 = none := alookup_eq_none_of_not_mem t k0 hb.1
      rw [hnone]
      simp [alookup, alookup_aset_self]
    · simp only [alookup, if_neg hkk]
      cases hv : alookup t k
      · rw [alookup_aset_ne f k0 k v0 (fun hh => hkk hh.symm)]
      · rfl

/-- **C8, counterexample.** Freezing a property bag with a dict nested
directly as a value does not produce a recursively frozen mapping: the
freshly built inner `ImmutibleMapping` is a dict subclass and *not* an
instance of `collections.Hashable`, so the outer constructor's assertion
fails.  This refutes the claim that nested dicts are frozen recursively into
the immutable, hashable-values-only view. -/
theorem C8_nested_dict_counterexample :
    mkPropertiesApi [("a", PVal.pdict [("b", PVal.pint 1)])] =
      Except.error "AssertionError: ImmutibleMapping values must be Hashable" ∧
    (mkPropertiesApi [("a", PVal.pdict [("b", PVal.pint 1)])]).isOk = false := by
  constructor <;> rfl

/-- **C8, amended.** The property bag is the merge of factory and build
properties with build winning on collisions; every set/delete on the
immutable mapping raises TypeError; lists are frozen to tuples of frozen
elements; and every value stored in a successfully frozen mapping passes the
`isinstance(..., Hashable)` check — but a dict nested directly as a value
never passes it (frozen mappings are not `Hashable` instances), so such a
bag raises AssertionError instead of being frozen recursively, while a dict
nested inside a list is frozen into the tuple and accepted (even though the
resulting tuple is not actually hashable). -/
theorem C8_properties_bag (factory build : List (String × PVal)) (k : String)
    (d m : List (String × PVal)) (key : String) (v : PVal)
    (hb : (build.map Prod.fst).Nodup) :
    alookup (mergeProperties factory build) k =
      (match alookup build k with
       | some v' => some v'
       | none => alookup factory k) ∧
    imapSetItem m key v =
      Except.error "TypeError: May not modify an ImmutibleMapping" ∧
    imapDelItem m key =
      Except.error "TypeError: May not modify an ImmutibleMapping" ∧
    (∀ l : List PVal, freeze (.plist l) = (freezeList l).map PVal.ptuple) ∧
    (∀ r, freeze (.pdict d) = Except.ok r →
       ∃ fd, r = PVal.pimap fd ∧ fd.all (fun kv => isHashableInst kv.2) = true) ∧
    mkPropertiesApi [("a", PVal.pdict [("b", PVal.pint 1)])] =
      Except.error "AssertionError: ImmutibleMapping values must be Hashable" ∧
    mkPropertiesApi [("a", PVal.plist [PVal.pdict [("b", PVal.pint 1)]])] =
      Except.ok (PVal.pimap [("a", PVal.ptuple [PVal.pimap [("b", PVal.pint 1)]])]) := by
  refine ⟨mergeProperties_lookup factory build k hb, rfl, rfl, ?_, ?_, rfl, rfl⟩
  · intro l
    show (do Except.ok (PVal.ptuple (← freezeList l))) = _
    cases freezeList l <;> rfl
  · intro r hr
    rw [show freeze (.pdict d) = (do
        let fd ← freezeDict d
        if fd.all (fun kv => isHashableInst kv.2) then Except.ok (PVal.pimap fd)
        else Except.error "AssertionError: ImmutibleMapping values must be Hashable")
      from rfl] at hr
    cases hfd : freezeDict d with
    | error e =>
      rw [hfd] at hr
      simp [bind, Except.bind] at hr
    | ok fd =>
      rw [hfd] at hr
      simp only [bind, Except.bind] at hr
      by_cases hall : fd.all (fun kv => isHashableInst kv.2)
      · rw [if_pos hall] at hr
        simp only [Except.ok.injEq] at hr
        exact ⟨fd, hr.symm, hall⟩
      · rw [if_neg hall] at hr
        simp at hr

/-- Witness for the amended C8 at concrete property bags. -/
theorem C8_properties_bag_witness :
    alookup (mergeProperties [("x", PVal.pint 1), ("y", PVal.pint 2)]
        [("y", PVal.pint 3)]) "y" = some (PVal.pint 3) ∧
    imapSetItem [("x", PVal.pint 1)] "x" (PVal.pint 9) =
      Except.error "TypeError: May not modify an ImmutibleMapping" ∧
    freeze (.plist [PVal.pint 1, PVal.pint 2]) =
      Except.ok (PVal.ptuple [PVal.pint 1, PVal.pint 2]) ∧
    mkPropertiesApi [("a", PVal.plist [PVal.pdict [("b", PVal.pint 1)]])] =
      Except.ok (PVal.pimap [("a", PVal.ptuple [PVal.pimap [("b", PVal.pint 1)]])]) := by
  have h := C8_properties_bag [("x", PVal.pint 1), ("y", PVal.pint 2)]
    [("y", PVal.pint 3)] "y" [] [("x", PVal.pint 1)] "x" (PVal.pint 9) (by simp)
  refine ⟨?_, h.2.1, ?_, h.2.2.2.2.2.2⟩
  · rw [h.1]
    rfl
  · rw [h.2.2.2.1 [PVal.pint 1, PVal.pint 2]]
    rfl

end PropertiesApi
